import Mathlib

/-!
# CloudScope — verification of the Availability Differencing Engine and the
# Allow-Pattern Matching Engine

A shallow embedding of the core of the CloudScope repository:

* `src/src/data_structures.py` — `InstanceType`, `InstanceAvailability`;
* `src/src/core/tracker.py` — `Tracker` (the spec's `DifferencingTracker`)
  and its `update` method;
* `src/src/data_structures/allow.py` — `AllowSet`, `AllowPair`,
  `AllowInstances`.

Python `dict`s keyed by `InstanceType` are embedded as association lists
(`List (InstanceType × InstanceAvailability)`); all the properties proved
below only depend on key lookup and key membership, which agree with the
Python dict semantics.  `datetime` values are embedded as integers (`Int`),
preserving ordering and equality.  In-place mutation of a record
(`InstanceAvailability.update`) is embedded as a functional field update.
-/

/-- `data_structures.py` — `InstanceType`: name, description, region.
Immutable, value-equal, hashable (pydantic `frozen = True`). -/
structure InstanceType where
  name : String
  description : String
  region : String
deriving DecidableEq, Repr

/-- `data_structures.py` — `InstanceAvailability`: an instance type together
with its first-observed and most-recently-observed times.  `start_time` is a
frozen pydantic field; `last_time_available` is mutable. -/
structure InstanceAvailability where
  instance_type : InstanceType
  start_time : Int
  last_time_available : Int
deriving DecidableEq, Repr

/-- `InstanceAvailability.update(current_time)`: sets
`last_time_available = current_time` and touches nothing else. -/
def InstanceAvailability.update (a : InstanceAvailability) (current_time : Int) :
    InstanceAvailability :=
  { a with last_time_available := current_time }

/-- A Python `Dict[InstanceType, InstanceAvailability]` as an association
list. -/
abbrev AvailDict := List (InstanceType × InstanceAvailability)

/-- Dictionary lookup (`d[k]` / `k in d`): the value of the first entry whose
key equals `k`. -/
def dlookup : AvailDict → InstanceType → Option InstanceAvailability
  | [], _ => none
  | p :: ps, k => if p.1 = k then some p.2 else dlookup ps k

/-- The keys of a dictionary (`d.keys()`). -/
def dkeys (d : AvailDict) : List InstanceType :=
  d.map Prod.fst

/-- `core/tracker.py` — the `Tracker` pydantic model (the spec's
`DifferencingTracker`), with the field defaults of the source. -/
structure Tracker where
  start_time : Int
  has_ever_observed_instances : Bool := false
  last_fetch_time : Option Int := none
  session_start_time : Option Int := none
  session_end_time : Option Int := none
  current_availabilities : AvailDict := []
  new_availabilities : AvailDict := []
  updated_availabilities : AvailDict := []
  removed_availabilities : AvailDict := []
deriving DecidableEq, Repr

/-- A freshly constructed `Tracker(start_time=t0)`. -/
def Tracker.init (t0 : Int) : Tracker :=
  { start_time := t0 }

/-- The `new_availabilities` loop of `Tracker.update`: fetched entries whose
key is not in `current_availabilities`, carrying the fetched record
unchanged. -/
def newOf (cur fetched : AvailDict) : AvailDict :=
  fetched.filterMap fun p =>
    match dlookup cur p.1 with
    | none => some p
    | some _ => none

/-- The `updated_availabilities` loop of `Tracker.update`: fetched entries
whose key is in `current_availabilities`; the existing record is kept and
only its `last_time_available` is set to `fetch_time`
(`availability = self.current_availabilities[instance_type];
availability.update(fetch_time)`). -/
def updOf (cur fetched : AvailDict) (fetch_time : Int) : AvailDict :=
  fetched.filterMap fun p =>
    match dlookup cur p.1 with
    | none => none
    | some a => some (p.1, a.update fetch_time)

/-- The `removed_availabilities` loop of `Tracker.update`: current entries
whose key is not in the fetched dictionary, carried as last observed. -/
def remOf (cur fetched : AvailDict) : AvailDict :=
  cur.filterMap fun p =>
    match dlookup fetched p.1 with
    | none => some p
    | some _ => none

/-- `core/tracker.py` — `Tracker.update(fetched_availabilities, fetch_time)`,
line by line:
1. `last_fetch_time = fetch_time` (unconditionally; no out-of-order check,
   no exception path anywhere in the method — the embedding is total);
2. `has_ever_observed_instances` becomes true once `fetched` is non-empty;
3. the new/updated/removed dictionaries are rebuilt from scratch;
4. the session branch runs on the OLD `current_availabilities` versus the
   emptiness of `fetched`, and only ever assigns the one field of its
   branch — the opposite field is left untouched;
5. finally `current_availabilities` is rebuilt from the new and updated
   dictionaries (their keys are disjoint, so append agrees with
   `dict.update`). -/
def Tracker.update (s : Tracker) (fetched : AvailDict) (fetch_time : Int) : Tracker :=
  let newA := newOf s.current_availabilities fetched
  let updA := updOf s.current_availabilities fetched fetch_time
  let remA := remOf s.current_availabilities fetched
  { s with
    last_fetch_time := some fetch_time
    has_ever_observed_instances := s.has_ever_observed_instances || !fetched.isEmpty
    new_availabilities := newA
    updated_availabilities := updA
    removed_availabilities := remA
    session_start_time :=
      if s.current_availabilities.isEmpty && !fetched.isEmpty then some fetch_time
      else s.session_start_time
    session_end_time :=
      if !s.current_availabilities.isEmpty && fetched.isEmpty then some fetch_time
      else s.session_end_time
    current_availabilities := newA ++ updA }

/-- The reachable states of a `Tracker`: the freshly constructed state
followed by any finite sequence of `update` calls. -/
inductive Tracker.Reachable : Tracker → Prop
  | init (t0 : Int) : Tracker.Reachable (Tracker.init t0)
  | step {s : Tracker} (fetched : AvailDict) (fetch_time : Int) :
      Tracker.Reachable s → Tracker.Reachable (s.update fetched fetch_time)

/-! ## Lookup lemmas for the three delta dictionaries -/

theorem dlookup_append (l₁ l₂ : AvailDict) (k : InstanceType) :
    dlookup (l₁ ++ l₂) k =
      match dlookup l₁ k with
      | some v => some v
      | none => dlookup l₂ k := by
  induction l₁ with
  | nil => simp [dlookup]
  | cons p ps ih =>
    by_cases h : p.1 = k <;> simp [dlookup, h, ih]

theorem dlookup_newOf (cur fetched : AvailDict) (k : InstanceType) :
    dlookup (newOf cur fetched) k =
      match dlookup cur k with
      | none => dlookup fetched k
      | some _ => none := by
  induction fetched with
  | nil => cases h : dlookup cur k <;> simp [newOf, dlookup]
  | cons p ps ih =>
    by_cases hpk : p.1 = k
    · subst hpk
      cases h : dlookup cur p.1 <;>
        simp [newOf, dlookup, h, List.filterMap_cons] <;>
        simpa [newOf, h] using ih
    · cases h : dlookup cur p.1 <;>
        cases h' : dlookup cur k <;>
        simp_all [newOf, dlookup, List.filterMap_cons, hpk]

theorem dlookup_updOf (cur fetched : AvailDict) (t : Int) (k : InstanceType) :
    dlookup (updOf cur fetched t) k =
      match dlookup cur k with
      | none => none
      | some a => (dlookup fetched k).map fun _ => a.update t := by
  induction fetched with
  | nil => cases h : dlookup cur k <;> simp [updOf, dlookup]
  | cons p ps ih =>
    by_cases hpk : p.1 = k
    · subst hpk
      cases h : dlookup cur p.1 <;>
        simp [updOf, dlookup, h, List.filterMap_cons] <;>
        simpa [updOf, h] using ih
    · cases h : dlookup cur p.1 <;>
        cases h' : dlookup cur k <;>
        simp_all [updOf, dlookup, List.filterMap_cons, hpk]

theorem dlookup_remOf (cur fetched : AvailDict) (k : InstanceType) :
    dlookup (remOf cur fetched) k =
      match dlookup fetched k with
      | none => dlookup cur k
      | some _ => none := by
  induction cur with
  | nil => cases h : dlookup fetched k <;> simp [remOf, dlookup]
  | cons p ps ih =>
    by_cases hpk : p.1 = k
    · subst hpk
      cases h : dlookup fetched p.1 <;>
        simp [remOf, dlookup, h, List.filterMap_cons] <;>
        simpa [remOf, h] using ih
    · cases h : dlookup fetched p.1 <;>
        cases h' : dlookup fetched k <;>
        simp_all [remOf, dlookup, List.filterMap_cons, hpk]

theorem dlookup_isSome_iff_mem_dkeys (l : AvailDict) (k : InstanceType) :
    (dlookup l k).isSome = true ↔ k ∈ dkeys l := by
  induction l with
  | nil => simp [dlookup, dkeys]
  | cons p ps ih =>
    by_cases h : p.1 = k
    · simp [dlookup, dkeys, h]
    · have h' : ¬k = p.1 := fun hh => h hh.symm
      simpa [dlookup, dkeys, h, h'] using ih

/-- Lookup in the post-`update` current dictionary. -/
theorem dlookup_update_current (s : Tracker) (fetched : AvailDict) (t : Int)
    (k : InstanceType) :
    dlookup (s.update fetched t).current_availabilities k =
      match dlookup s.current_availabilities k with
      | none => dlookup fetched k
      | some a => (dlookup fetched k).map fun _ => a.update t := by
  show dlookup (newOf s.current_availabilities fetched ++
      updOf s.current_availabilities fetched t) k = _
  rw [dlookup_append, dlookup_newOf, dlookup_updOf]
  cases h : dlookup s.current_availabilities k <;> cases h' : dlookup fetched k <;> simp

theorem update_new_eq (s : Tracker) (fetched : AvailDict) (t : Int) :
    (s.update fetched t).new_availabilities = newOf s.current_availabilities fetched := rfl

theorem update_upd_eq (s : Tracker) (fetched : AvailDict) (t : Int) :
    (s.update fetched t).updated_availabilities =
      updOf s.current_availabilities fetched t := rfl

theorem update_rem_eq (s : Tracker) (fetched : AvailDict) (t : Int) :
    (s.update fetched t).removed_availabilities = remOf s.current_availabilities fetched := rfl

/-- After an `update`, the key set of `current_availabilities` is exactly the
key set of the fetched snapshot. -/
theorem mem_dkeys_update_current (s : Tracker) (fetched : AvailDict) (t : Int)
    (k : InstanceType) :
    k ∈ dkeys (s.update fetched t).current_availabilities ↔ k ∈ dkeys fetched := by
  rw [← dlookup_isSome_iff_mem_dkeys, ← dlookup_isSome_iff_mem_dkeys,
    dlookup_update_current]
  cases hc : dlookup s.current_availabilities k <;> cases hf : dlookup fetched k <;> simp

/-- The post-`update` current dictionary is empty exactly when the fetched
snapshot is empty. -/
theorem update_current_empty_iff (s : Tracker) (fetched : AvailDict) (t : Int) :
    (s.update fetched t).current_availabilities = [] ↔ fetched = [] := by
  constructor
  · intro h
    cases fetched with
    | nil => rfl
    | cons p ps =>
      have hl := dlookup_update_current s (p :: ps) t p.1
      rw [h] at hl
      have hf : dlookup (p :: ps) p.1 = some p.2 := by simp [dlookup]
      cases hc : dlookup s.current_availabilities p.1 <;> simp [hc, hf, dlookup] at hl
  · intro h
    subst h
    rfl

theorem update_session_start_eq (s : Tracker) (fetched : AvailDict) (t : Int) :
    (s.update fetched t).session_start_time =
      if s.current_availabilities.isEmpty && !fetched.isEmpty then some t
      else s.session_start_time := rfl

theorem update_session_end_eq (s : Tracker) (fetched : AvailDict) (t : Int) :
    (s.update fetched t).session_end_time =
      if !s.current_availabilities.isEmpty && fetched.isEmpty then some t
      else s.session_end_time := rfl

theorem availdict_isEmpty_eq_false (l : AvailDict) : l.isEmpty = false ↔ l ≠ [] := by
  cases l <;> simp

/-! ## C10, C3, C4 — totality, partition, idempotence -/

/-- **C10**: `Tracker.update` is total over its inputs — the embedding is a
total function because the source method has no exception path and performs
no check on `fetch_time` — and `last_fetch_time` is unconditionally
overwritten with the supplied `fetch_time` on every call, in particular when
`fetch_time` is earlier than the recorded last poll time (no `OutOfOrderPoll`
error exists). -/
theorem Tracker.update_total_overwrites_last_fetch_time (s : Tracker)
    (fetched : AvailDict) (t : Int) :
    (s.update fetched t).last_fetch_time = some t := rfl

/-- **C3**: after every `update`, the three delta dictionaries are pairwise
disjoint on their keys, and the key set of `new ∪ updated` equals the key set
of the post-call current dictionary. -/
theorem Tracker.update_partition (s : Tracker) (fetched : AvailDict) (t : Int) :
    (∀ k, k ∈ dkeys (s.update fetched t).new_availabilities →
        k ∉ dkeys (s.update fetched t).updated_availabilities) ∧
    (∀ k, k ∈ dkeys (s.update fetched t).new_availabilities →
        k ∉ dkeys (s.update fetched t).removed_availabilities) ∧
    (∀ k, k ∈ dkeys (s.update fetched t).updated_availabilities →
        k ∉ dkeys (s.update fetched t).removed_availabilities) ∧
    (∀ k, (k ∈ dkeys (s.update fetched t).new_availabilities ∨
           k ∈ dkeys (s.update fetched t).updated_availabilities) ↔
        k ∈ dkeys (s.update fetched t).current_availabilities) := by
  refine ⟨fun k h1 h2 => ?_, fun k h1 h2 => ?_, fun k h1 h2 => ?_, fun k => ?_⟩
  · rw [← dlookup_isSome_iff_mem_dkeys, update_new_eq, dlookup_newOf] at h1
    rw [← dlookup_isSome_iff_mem_dkeys, update_upd_eq, dlookup_updOf] at h2
    cases hc : dlookup s.current_availabilities k <;> simp [hc] at h1 h2
  · rw [← dlookup_isSome_iff_mem_dkeys, update_new_eq, dlookup_newOf] at h1
    rw [← dlookup_isSome_iff_mem_dkeys, update_rem_eq, dlookup_remOf] at h2
    cases hc : dlookup s.current_availabilities k <;>
      cases hf : dlookup fetched k <;> simp [hc, hf] at h1 h2
  · rw [← dlookup_isSome_iff_mem_dkeys, update_upd_eq, dlookup_updOf] at h1
    rw [← dlookup_isSome_iff_mem_dkeys, update_rem_eq, dlookup_remOf] at h2
    cases hc : dlookup s.current_availabilities k <;>
      cases hf : dlookup fetched k <;> simp [hc, hf] at h1 h2
  · rw [← dlookup_isSome_iff_mem_dkeys, ← dlookup_isSome_iff_mem_dkeys,
      ← dlookup_isSome_iff_mem_dkeys, update_new_eq, update_upd_eq,
      dlookup_newOf, dlookup_updOf, dlookup_update_current]
    cases hc : dlookup s.current_availabilities k <;>
      cases hf : dlookup fetched k <;> simp

/-- **C3 witness**: the partition property evaluated on a concrete call. -/
theorem Tracker.update_partition_witness :
    let instW : InstanceType := ⟨"gpu_1x_a10", "A10", "us-east-1"⟩
    instW ∈ dkeys (((Tracker.init 0).update [(instW, ⟨instW, 0, 0⟩)] 0).current_availabilities) :=
  (Tracker.update_partition (Tracker.init 0)
      [(⟨"gpu_1x_a10", "A10", "us-east-1"⟩, ⟨⟨"gpu_1x_a10", "A10", "us-east-1"⟩, 0, 0⟩)]
      0).2.2.2 ⟨"gpu_1x_a10", "A10", "us-east-1"⟩ |>.mp (Or.inl (by decide))

/-- **C4**: calling `update` twice in succession with an identical snapshot
and the same fetch time yields empty `new` and `removed` dictionaries on the
second call, and an `updated` dictionary whose key set is exactly the key set
of the snapshot. -/
theorem Tracker.update_idempotent (s : Tracker) (fetched : AvailDict) (t : Int) :
    ((s.update fetched t).update fetched t).new_availabilities = [] ∧
    ((s.update fetched t).update fetched t).removed_availabilities = [] ∧
    (∀ k, k ∈ dkeys ((s.update fetched t).update fetched t).updated_availabilities ↔
        k ∈ dkeys fetched) := by
  have hcur : ∀ k, (dlookup (s.update fetched t).current_availabilities k).isSome =
      (dlookup fetched k).isSome := by
    intro k
    rw [dlookup_update_current]
    cases hc : dlookup s.current_availabilities k <;> cases hf : dlookup fetched k <;> simp
  refine ⟨?_, ?_, fun k => ?_⟩
  · rw [update_new_eq, newOf, List.filterMap_eq_nil_iff]
    intro p hp
    have hk : p.1 ∈ dkeys fetched := List.mem_map_of_mem Prod.fst hp
    rw [← dlookup_isSome_iff_mem_dkeys, ← hcur p.1] at hk
    cases hc : dlookup (s.update fetched t).current_availabilities p.1 <;>
      simp [hc] at hk ⊢
  · rw [update_rem_eq, remOf, List.filterMap_eq_nil_iff]
    intro p hp
    have hk : p.1 ∈ dkeys (s.update fetched t).current_availabilities :=
      List.mem_map_of_mem Prod.fst hp
    rw [← dlookup_isSome_iff_mem_dkeys, hcur p.1] at hk
    cases hf : dlookup fetched p.1 <;> simp [hf] at hk ⊢
  · rw [← dlookup_isSome_iff_mem_dkeys, update_upd_eq, dlookup_updOf,
      ← dlookup_isSome_iff_mem_dkeys]
    cases hc : dlookup (s.update fetched t).current_availabilities k <;>
      cases hf : dlookup fetched k
    case none.none => simp
    case none.some => exact absurd (hcur k) (by rw [hc, hf]; simp)
    case some.none => simp
    case some.some => simp

/-- **C4 witness**: idempotence evaluated on a concrete double call. -/
theorem Tracker.update_idempotent_witness :
    let instW : InstanceType := ⟨"gpu_1x_a10", "A10", "us-east-1"⟩
    (((Tracker.init 0).update [(instW, ⟨instW, 0, 0⟩)] 5).update
        [(instW, ⟨instW, 0, 0⟩)] 5).new_availabilities = [] :=
  (Tracker.update_idempotent (Tracker.init 0)
      [(⟨"gpu_1x_a10", "A10", "us-east-1"⟩, ⟨⟨"gpu_1x_a10", "A10", "us-east-1"⟩, 0, 0⟩)]
      5).1

/-! ## C1, C2 — the session fields

In `core/tracker.py`, the session branch of `update` assigns only the field
of its own branch: on a session start `session_start_time = fetch_time` is
assigned and `session_end_time` is left as it was, and symmetrically on a
session end.  Neither field is ever reset to `None`, so after a session has
started and then ended, both fields are set at once. -/

/-- A concrete offering used by the counterexamples and witnesses. -/
def instA : InstanceType := ⟨"gpu_1x_a10", "A10 24GB PCIe", "us-east-1"⟩

/-- A record for `instA` first and last seen at time 0. -/
def availA : InstanceAvailability := ⟨instA, 0, 0⟩

/-- The tracker after one poll observing `instA` at time 0. -/
def trackerAfterStart : Tracker := (Tracker.init 0).update [(instA, availA)] 0

/-- The tracker after a session start at time 0 and an empty poll at
time 1. -/
def trackerAfterEnd : Tracker := trackerAfterStart.update [] 1

/-- **C1 counterexample**: a reachable state — observe one offering at time
0, then an empty snapshot at time 1 — in which `session_start_time` and
`session_end_time` are both set simultaneously, because the session-end
branch of `update` does not clear `session_start_time`. -/
theorem Tracker.session_both_set_counterexample :
    trackerAfterEnd.Reachable ∧
    trackerAfterEnd.session_start_time = some 0 ∧
    trackerAfterEnd.session_end_time = some 1 :=
  ⟨.step [] 1 (.step [(instA, availA)] 0 (.init 0)), by decide, by decide⟩

/-- **C1 (amended)**: for every reachable state of the tracker,
`session_end_time` set implies `session_start_time` set (a session can only
end after one started, and `session_start_time` is never cleared), and a
non-empty current dictionary implies `session_start_time` set.  The original
claim's "never both set" fails: once a session has started and later ended,
both fields are set simultaneously. -/
theorem Tracker.reachable_session_end_implies_start (s : Tracker)
    (h : s.Reachable) :
    (s.current_availabilities ≠ [] → s.session_start_time ≠ none) ∧
    (s.session_end_time ≠ none → s.session_start_time ≠ none) := by
  induction h with
  | init t0 =>
    exact ⟨fun hc => absurd rfl hc, fun he => absurd rfl he⟩
  | step fetched t hs ih =>
    rename_i s
    rcases ih with ⟨ih1, ih2⟩
    rw [update_session_start_eq, update_session_end_eq]
    cases hce : s.current_availabilities.isEmpty <;> cases hfe : fetched.isEmpty <;>
      simp only [hce, hfe, Bool.not_true, Bool.not_false, Bool.false_and, Bool.true_and,
        Bool.and_false, Bool.and_true, if_true, if_false, Bool.false_eq_true, ite_false,
        ite_true]
    case false.false =>
      have hc : s.current_availabilities ≠ [] := (availdict_isEmpty_eq_false _).mp hce
      exact ⟨fun _ => ih1 hc, ih2⟩
    case false.true =>
      have hc : s.current_availabilities ≠ [] := (availdict_isEmpty_eq_false _).mp hce
      exact ⟨fun _ => ih1 hc, fun _ => ih1 hc⟩
    case true.false =>
      exact ⟨fun _ => by simp, fun _ => by simp⟩
    case true.true =>
      have hf : fetched = [] := by
        cases fetched with
        | nil => rfl
        | cons p ps => simp at hfe
      refine ⟨fun hc => ?_, ih2⟩
      exact absurd ((update_current_empty_iff s fetched t).mpr hf) hc

/-- **C1 (amended) witness**: the amended invariant applied to the concrete
reachable state in which a session has started and then ended. -/
theorem Tracker.reachable_session_end_implies_start_witness :
    trackerAfterEnd.session_start_time ≠ none :=
  (Tracker.reachable_session_end_implies_start trackerAfterEnd
      (.step [] 1 (.step [(instA, availA)] 0 (.init 0)))).2 (by decide)

/-- **C2 counterexample**: a call of `update` on a reachable state whose
current dictionary is non-empty before and empty after the call sets
`session_end_time = fetch_time` but leaves `session_start_time` at its
previous non-`None` value, contradicting the claimed
`session_start = None`. -/
theorem Tracker.session_transition_counterexample :
    trackerAfterStart.current_availabilities ≠ [] ∧
    trackerAfterEnd.current_availabilities = [] ∧
    trackerAfterEnd.session_end_time = some 1 ∧
    trackerAfterEnd.session_start_time ≠ none :=
  ⟨by decide, by decide, by decide, by decide⟩

/-- **C2 (amended)**: the session transition postcondition of
`update(fetched, fetch_time)`: if `current` was empty before the call and is
non-empty after it, then `session_start_time = fetch_time` and
`session_end_time` is unchanged (not cleared); symmetrically, if `current`
was non-empty before and empty after, then `session_end_time = fetch_time`
and `session_start_time` is unchanged (not cleared); in all other cases both
fields are unchanged. -/
theorem Tracker.update_session_transition (s : Tracker) (fetched : AvailDict)
    (t : Int) :
    (s.current_availabilities = [] → (s.update fetched t).current_availabilities ≠ [] →
      (s.update fetched t).session_start_time = some t ∧
      (s.update fetched t).session_end_time = s.session_end_time) ∧
    (s.current_availabilities ≠ [] → (s.update fetched t).current_availabilities = [] →
      (s.update fetched t).session_end_time = some t ∧
      (s.update fetched t).session_start_time = s.session_start_time) ∧
    ((s.current_availabilities = [] ↔ (s.update fetched t).current_availabilities = []) →
      (s.update fetched t).session_start_time = s.session_start_time ∧
      (s.update fetched t).session_end_time = s.session_end_time) := by
  rw [update_session_start_eq, update_session_end_eq]
  refine ⟨fun hc hc' => ?_, fun hc hc' => ?_, fun hiff => ?_⟩
  · have hf : fetched ≠ [] := fun hh =>
      hc' ((update_current_empty_iff s fetched t).mpr hh)
    have h1 : s.current_availabilities.isEmpty = true := by simp [hc]
    have h2 : fetched.isEmpty = false := (availdict_isEmpty_eq_false _).mpr hf
    simp [h1, h2]
  · have hf : fetched = [] := (update_current_empty_iff s fetched t).mp hc'
    have h1 : s.current_availabilities.isEmpty = false :=
      (availdict_isEmpty_eq_false _).mpr hc
    simp [h1, hf]
  · by_cases hfe : fetched = []
    · have hcur : s.current_availabilities = [] :=
        hiff.mpr ((update_current_empty_iff s fetched t).mpr hfe)
      simp [hcur, hfe]
    · have hcur : s.current_availabilities ≠ [] := fun hh =>
        hfe ((update_current_empty_iff s fetched t).mp (hiff.mp hh))
      have h1 : s.current_availabilities.isEmpty = false :=
        (availdict_isEmpty_eq_false _).mpr hcur
      have h2 : fetched.isEmpty = false := (availdict_isEmpty_eq_false _).mpr hfe
      simp [h1, h2]

/-- **C2 (amended) witness**: the start and end transitions evaluated on
concrete calls. -/
theorem Tracker.update_session_transition_witness :
    (trackerAfterStart.session_start_time = some 0 ∧
      trackerAfterStart.session_end_time = none) ∧
    (trackerAfterEnd.session_end_time = some 1 ∧
      trackerAfterEnd.session_start_time = some 0) :=
  ⟨(Tracker.update_session_transition (Tracker.init 0) [(instA, availA)] 0).1
      (by decide) (by decide),
   (Tracker.update_session_transition trackerAfterStart [] 1).2.1
      (by decide) (by decide)⟩

/-! ## C5, C6 — the availability records

`core/tracker.py` installs the caller-supplied fetched record into the `new`
delta and into `current` unchanged (`self.new_availabilities[instance_type] =
availability`); it does not construct a fresh record at `fetch_time`.  For an
offering already present, the existing record is kept and only its
`last_time_available` is set to `fetch_time`. -/

theorem update_current_eq (s : Tracker) (fetched : AvailDict) (t : Int) :
    (s.update fetched t).current_availabilities =
      newOf s.current_availabilities fetched ++
        updOf s.current_availabilities fetched t := rfl

theorem dlookup_mem (l : AvailDict) (k : InstanceType) (a : InstanceAvailability)
    (h : dlookup l k = some a) : (k, a) ∈ l := by
  induction l with
  | nil => simp [dlookup] at h
  | cons p ps ih =>
    obtain ⟨k', v⟩ := p
    by_cases hpk : k' = k
    · subst hpk
      simp only [dlookup, if_pos] at h
      injection h with h'
      subst h'
      exact List.mem_cons_self _ _
    · simp only [dlookup, if_neg hpk] at h
      exact List.mem_cons_of_mem _ (ih h)

theorem mem_newOf (cur fetched : AvailDict) (p : InstanceType × InstanceAvailability) :
    p ∈ newOf cur fetched ↔ p ∈ fetched ∧ dlookup cur p.1 = none := by
  rw [newOf, List.mem_filterMap]
  constructor
  · rintro ⟨q, hq, hfn⟩
    cases hc : dlookup cur q.1 with
    | none =>
      simp [hc] at hfn
      subst hfn
      exact ⟨hq, hc⟩
    | some a => simp [hc] at hfn
  · rintro ⟨hp, hc⟩
    exact ⟨p, hp, by simp [hc]⟩

theorem mem_updOf (cur fetched : AvailDict) (t : Int)
    (p : InstanceType × InstanceAvailability) :
    p ∈ updOf cur fetched t ↔
      ∃ q ∈ fetched, ∃ a, dlookup cur q.1 = some a ∧ p = (q.1, a.update t) := by
  rw [updOf, List.mem_filterMap]
  constructor
  · rintro ⟨q, hq, hfn⟩
    cases hc : dlookup cur q.1 with
    | none => simp [hc] at hfn
    | some a =>
      simp [hc] at hfn
      exact ⟨q, hq, a, hc, hfn.symm⟩
  · rintro ⟨q, hq, a, hc, rfl⟩
    exact ⟨q, hq, by simp [hc]⟩

/-- Every record in the current dictionary satisfies
`first_seen ≤ last_seen ≤ T`.  (The snapshot parser
`InstanceAvailability.from_lambda_json_str` creates every record with
`start_time = last_time_available =` the fetch time, so the fetched
snapshots of the real pipeline satisfy the corresponding bound.) -/
abbrev RecordsBoundedBy (s : Tracker) (T : Int) : Prop :=
  ∀ p ∈ s.current_availabilities,
    p.2.start_time ≤ p.2.last_time_available ∧ p.2.last_time_available ≤ T

/-- A record for `instA` whose `last_time_available` (100) is far ahead of
the poll times — a caller-supplied record `update` installs unchanged. -/
def availHigh : InstanceAvailability := ⟨instA, 0, 100⟩

/-- Poll at time 4 installing `availHigh`, then poll at time 5. -/
def trackerHigh1 : Tracker := (Tracker.init 0).update [(instA, availHigh)] 4

/-- Second poll of the `availHigh` trace, at time 5. -/
def trackerHigh2 : Tracker := trackerHigh1.update [(instA, availHigh)] 5

/-- **C5 counterexample**: across two `update` calls with non-decreasing
fetch times (4 then 5), the record tracked for `instA` has its `last_seen`
go from 100 down to 5 — `last_seen` is not non-decreasing, because the
record created at the first call is the caller-supplied one, whose
`last_time_available` need not equal the fetch time. -/
theorem Tracker.record_last_seen_decreasing_counterexample :
    dlookup trackerHigh1.current_availabilities instA = some ⟨instA, 0, 100⟩ ∧
    dlookup trackerHigh2.current_availabilities instA = some ⟨instA, 0, 5⟩ ∧
    ¬((100 : Int) ≤ 5) :=
  ⟨by decide, by decide, by decide⟩

/-- **C5 (amended)**: provided every record of the fetched snapshot
satisfies `first_seen ≤ last_seen ≤ fetch_time` (as the snapshot parser
guarantees) and fetch times are non-decreasing, then after `update`: every
current record satisfies `first_seen ≤ last_seen ≤ fetch_time`, and every
offering present both before and after the call keeps exactly the same
record with only `last_time_available` changed to `fetch_time` (its
`first_seen` is unchanged and its `last_seen` is non-decreasing). -/
theorem Tracker.update_record_invariant (s : Tracker) (fetched : AvailDict)
    (t T : Int) (hs : RecordsBoundedBy s T) (hT : T ≤ t)
    (hf : ∀ p ∈ fetched,
      p.2.start_time ≤ p.2.last_time_available ∧ p.2.last_time_available ≤ t) :
    RecordsBoundedBy (s.update fetched t) t ∧
    (∀ k a b, dlookup s.current_availabilities k = some a →
      dlookup (s.update fetched t).current_availabilities k = some b →
      b = a.update t ∧ b.start_time = a.start_time ∧
        a.last_time_available ≤ b.last_time_available) := by
  constructor
  · intro p hp
    rw [update_current_eq] at hp
    rcases List.mem_append.mp hp with hn | hu
    · exact hf p ((mem_newOf _ _ _).mp hn).1
    · rcases (mem_updOf _ _ _ _).mp hu with ⟨q, _, a, ha, rfl⟩
      rcases hs _ (dlookup_mem _ _ _ ha) with ⟨h1, h2⟩
      exact ⟨le_trans h1 (le_trans h2 hT), le_refl t⟩
  · intro k a b ha hb
    rw [dlookup_update_current, ha] at hb
    cases hfk : dlookup fetched k with
    | none => rw [hfk] at hb; simp at hb
    | some v =>
      rw [hfk] at hb
      simp at hb
      subst hb
      rcases hs _ (dlookup_mem _ _ _ ha) with ⟨_, h2⟩
      exact ⟨rfl, rfl, le_trans h2 hT⟩

/-- **C5 (amended) witness**: the invariant evaluated on a concrete
well-formed trace. -/
theorem Tracker.update_record_invariant_witness :
    RecordsBoundedBy (trackerAfterStart.update [(instA, ⟨instA, 5, 5⟩)] 5) 5 :=
  (Tracker.update_record_invariant trackerAfterStart [(instA, ⟨instA, 5, 5⟩)] 5 0
      (by decide) (by decide) (by decide)).1

/-- A caller-supplied record whose times differ from the fetch time. -/
def availStale : InstanceAvailability := ⟨instA, 5, 5⟩

/-- **C6 counterexample**: an offering not in `current` fetched at time 7
with a caller-supplied record whose `first_seen = last_seen = 5`: the record
classified into `new` (and installed in `current`) is that record unchanged,
so its `first_seen` and `last_seen` are 5, not the fetch time 7 — `update`
does not create a fresh record at `fetch_time`. -/
theorem Tracker.new_record_not_fresh_counterexample :
    dlookup (((Tracker.init 0).update [(instA, availStale)] 7).new_availabilities)
        instA = some availStale ∧
    dlookup (((Tracker.init 0).update [(instA, availStale)] 7).current_availabilities)
        instA = some availStale ∧
    availStale.start_time ≠ 7 ∧ availStale.last_time_available ≠ 7 :=
  ⟨by decide, by decide, by decide, by decide⟩

/-- **C6 (amended)**: for every offering in `fetched` that is not in
`current` before the call, the record classified into `new` and installed in
`current` is the caller-supplied fetched record itself, unchanged; in
particular its `first_seen` and `last_seen` equal `fetch_time` exactly when
the caller supplied them as such (which the snapshot parser does). -/
theorem Tracker.update_new_passthrough (s : Tracker) (fetched : AvailDict)
    (t : Int) (k : InstanceType) (a : InstanceAvailability)
    (hfk : dlookup fetched k = some a)
    (hck : dlookup s.current_availabilities k = none) :
    dlookup (s.update fetched t).new_availabilities k = some a ∧
    dlookup (s.update fetched t).current_availabilities k = some a := by
  constructor
  · rw [update_new_eq, dlookup_newOf]
    simp [hck, hfk]
  · rw [dlookup_update_current]
    simp [hck, hfk]

/-- **C6 (amended) witness**: the pass-through evaluated on a concrete
call. -/
theorem Tracker.update_new_passthrough_witness :
    dlookup (((Tracker.init 0).update [(instA, availA)] 0).new_availabilities)
        instA = some availA :=
  (Tracker.update_new_passthrough (Tracker.init 0) [(instA, availA)] 0 instA availA
      (by decide) (by decide)).1

/-! ## The Allow-Pattern Matching Engine (`data_structures/allow.py`)

Python `Set[str]` values are embedded as `Finset String`: every operation of
`allow.py` on them (membership, emptiness, size, union, filtering) is
iteration-order independent, so the `Finset` embedding is faithful.
Construction failure (`raise ValueError`) is embedded as `Except String`. -/

/-- The character class of the validation regex `^[*a-zA-Z0-9-_]*$` of
`AllowSet._validate_characters`. -/
def validChar (c : Char) : Bool :=
  c = '*' || c.isAlpha || c.isDigit || c = '-' || c = '_'

/-- A value passes `_validate_characters` iff all its characters lie in the
class (the regex is anchored at both ends and `*`-quantified). -/
def validName (s : String) : Bool :=
  s.data.all validChar

/-- Anchored matching of the translated pattern `value.replace('*', '.*')`
under `re.match(f"^…$", x)`: `*` matches zero or more characters, every other
(validated) character matches itself. -/
def globMatch : List Char → List Char → Bool
  | [], [] => true
  | [], _ :: _ => false
  | '*' :: ps, [] => globMatch ps []
  | '*' :: ps, c :: cs => globMatch ps (c :: cs) || globMatch ('*' :: ps) cs
  | _ :: _, [] => false
  | p :: ps, c :: cs => (p = c) && globMatch ps cs
termination_by ps s => (ps.length, s.length)

/-- Glob matching on strings. -/
def globMatches (pat x : String) : Bool :=
  globMatch pat.data x.data

/-- `allow.py` — `AllowSet`, with its two pydantic fields and the privately
cached `_computed_set`.  Pydantic v2 model equality compares the fields and
the private attributes, so `DecidableEq` on all three fields is the faithful
embedding of `AllowSet.__eq__`. -/
structure AllowSet where
  full_set : Finset String
  allow_set : Finset String
  computed_set : Finset String
deriving DecidableEq

/-- `AllowSet.is_allowed(name)`: membership in the computed set. -/
def AllowSet.is_allowed (A : AllowSet) (name : String) : Bool :=
  decide (name ∈ A.computed_set)

/-- `AllowSet._compute_computed_set`, branch for branch:
1. empty `allow_set` → the full set;
2. `allow_set == {"*"}` → the full set;
3. `"*"` together with other values → error;
4. otherwise: a value containing `*` contributes every full-set member
   matching the alternation built over ALL of `allow_set` (line 59 of
   `allow.py` joins over `self.allow_set`; the comprehension variable shadows
   the loop variable), a value without `*` must be in the full set (error
   otherwise) and contributes itself.  The Python iteration order affects
   neither whether an error is raised nor the resulting set. -/
def computeComputedSet (full allow : Finset String) : Except String (Finset String) :=
  if allow = ∅ then .ok full
  else if "*" ∈ allow ∧ allow.card = 1 then .ok full
  else if "*" ∈ allow then .error "ambiguous wildcard"
  else if ∃ v ∈ allow, v.contains '*' = false ∧ v ∉ full then .error "unknown literal"
  else .ok ((full.filter fun x =>
      (∃ w ∈ allow, w.contains '*' = true) ∧ ∃ v ∈ allow, globMatches v x = true) ∪
    allow.filter fun v => v.contains '*' = false)

/-- `AllowSet.__init__`: character validation of both sets (full set first,
then allow set, as in `_validate_characters`), then the computed-set
resolution. -/
def AllowSet.make (full allow : Finset String) : Except String AllowSet :=
  if ∃ v ∈ full, validName v = false then .error "invalid character in full_set"
  else if ∃ v ∈ allow, validName v = false then .error "invalid character in allow_set"
  else (computeComputedSet full allow).map fun c => ⟨full, allow, c⟩

/-- Constructing an `AllowSet` over a valid universe with an empty pattern
set succeeds and computes the whole universe. -/
theorem AllowSet.make_empty_allow_ok (U : Finset String)
    (hU : ∀ v ∈ U, validName v = true) :
    AllowSet.make U ∅ = .ok ⟨U, ∅, U⟩ := by
  have h1 : ¬∃ v ∈ U, validName v = false := by
    rintro ⟨v, hv, hbad⟩
    rw [hU v hv] at hbad
    cases hbad
  have h2 : ¬∃ v ∈ (∅ : Finset String), validName v = false := by
    rintro ⟨v, hv, -⟩
    exact absurd hv (Finset.not_mem_empty v)
  rw [AllowSet.make, if_neg h1, if_neg h2, computeComputedSet, if_pos rfl]
  rfl

/-- **C7**: for every universe `U` whose entries contain only valid
characters and every name `x`, an `AllowSet` constructed with an empty
pattern set has `computed_set = U`, and `is_allowed x` returns true iff
`x ∈ U`. -/
theorem AllowSet.empty_patterns_allows_universe (U : Finset String) (x : String)
    (hU : ∀ v ∈ U, validName v = true) :
    AllowSet.make U ∅ = .ok ⟨U, ∅, U⟩ ∧
    (AllowSet.mk U ∅ U).computed_set = U ∧
    ((AllowSet.mk U ∅ U).is_allowed x = true ↔ x ∈ U) :=
  ⟨AllowSet.make_empty_allow_ok U hU, rfl, by simp [AllowSet.is_allowed]⟩

/-- **C7 witness**: the total-allow rule evaluated on a concrete universe. -/
theorem AllowSet.empty_patterns_allows_universe_witness :
    AllowSet.make {"gpu_1x_a10"} ∅ = .ok ⟨{"gpu_1x_a10"}, ∅, {"gpu_1x_a10"}⟩ ∧
    ((AllowSet.mk {"gpu_1x_a10"} ∅ {"gpu_1x_a10"}).is_allowed "gpu_1x_a10" = true ↔
      "gpu_1x_a10" ∈ ({"gpu_1x_a10"} : Finset String)) :=
  ⟨(AllowSet.empty_patterns_allows_universe {"gpu_1x_a10"} "gpu_1x_a10"
      (by decide)).1,
   (AllowSet.empty_patterns_allows_universe {"gpu_1x_a10"} "gpu_1x_a10"
      (by decide)).2.2⟩

/-- `allow.py` — `AllowPair`: a name-axis and a region-axis `AllowSet`.
Pydantic model equality compares both (`DecidableEq`). -/
structure AllowPair where
  instance_names : AllowSet
  regions : AllowSet
deriving DecidableEq

/-- `AllowPair.is_allowed(instance_name, region)`: conjunction of the two
axes. -/
def AllowPair.is_allowed (p : AllowPair) (instance_name region : String) : Bool :=
  p.instance_names.is_allowed instance_name && p.regions.is_allowed region

/-- `allow.py` — `AllowInstances`: a collection of `AllowPair`s.  The Python
`Set[AllowPair]` is embedded as a list; `is_allowed` and the duplicate check
only use iteration (`any`) and membership, which are order-independent. -/
structure AllowInstances where
  allow_pairs : List AllowPair
deriving DecidableEq

/-- `AllowInstances.is_allowed(instance_name, region)`: `any` over the
member pairs. -/
def AllowInstances.is_allowed (ai : AllowInstances) (instance_name region : String) :
    Bool :=
  ai.allow_pairs.any fun p => p.is_allowed instance_name region

/-- The construction loop of `AllowInstances.from_config_json_array` over
the already-parsed configuration entries (JSON parsing is out of scope; each
entry is the pair of its `instance_names` and `regions` pattern sets).  For
each entry the two `AllowSet`s are built (either may fail), the freshly
built pair is checked against the already accepted ones — Python set
membership under `AllowPair` equality, i.e. pydantic model equality of both
axes with all three `AllowSet` fields — and a duplicate raises at
construction time. -/
def fromConfigArrayGo (instFull regFull : Finset String) :
    List (Finset String × Finset String) → List AllowPair →
      Except String AllowInstances
  | [], acc => .ok ⟨acc⟩
  | c :: rest, acc =>
    match AllowSet.make instFull c.1, AllowSet.make regFull c.2 with
    | .ok instance_names, .ok regions =>
      if (⟨instance_names, regions⟩ : AllowPair) ∈ acc then
        .error "Duplicate AllowPair"
      else fromConfigArrayGo instFull regFull rest (acc ++ [⟨instance_names, regions⟩])
    | .error e, _ => .error e
    | .ok _, .error e => .error e

/-- `AllowInstances.from_config_json_array(config_json_array,
instances_full_set, regions_full_set)`. -/
def AllowInstances.from_config_json_array
    (config_json_array : List (Finset String × Finset String))
    (instances_full_set regions_full_set : Finset String) :
    Except String AllowInstances :=
  fromConfigArrayGo instances_full_set regions_full_set config_json_array []

/-- `Except.ok` projection, used to state results decidably. -/
def exceptOk {α : Type} : Except String α → Option α
  | .ok a => some a
  | .error _ => none

/-- The pair built from universe `{"gpu_1x_a10"}` / `{"us-east-1"}` with
EMPTY pattern sets on both axes. -/
def pairEmptyPatterns : AllowPair :=
  ⟨⟨{"gpu_1x_a10"}, ∅, {"gpu_1x_a10"}⟩, ⟨{"us-east-1"}, ∅, {"us-east-1"}⟩⟩

/-- The pair built from the same universes with pattern set `{"*"}` on both
axes — same resolved computed sets as `pairEmptyPatterns`, different
pattern fields. -/
def pairStarPatterns : AllowPair :=
  ⟨⟨{"gpu_1x_a10"}, {"*"}, {"gpu_1x_a10"}⟩, ⟨{"us-east-1"}, {"*"}, {"us-east-1"}⟩⟩

/-- **C8 counterexample**: two groups whose resolved name-axis and
region-axis computed sets coincide (empty patterns versus `{"*"}`, both
resolving to the whole universe) are NOT rejected: construction succeeds,
because the duplicate check compares pydantic model equality, which also
includes the `allow_set` pattern fields, and those differ. -/
theorem AllowInstances.duplicate_computed_sets_accepted_counterexample :
    exceptOk (AllowInstances.from_config_json_array
        [(∅, ∅), ({"*"}, {"*"})] {"gpu_1x_a10"} {"us-east-1"}) =
      some ⟨[pairEmptyPatterns, pairStarPatterns]⟩ ∧
    pairEmptyPatterns.instance_names.computed_set =
      pairStarPatterns.instance_names.computed_set ∧
    pairEmptyPatterns.regions.computed_set = pairStarPatterns.regions.computed_set ∧
    pairEmptyPatterns ≠ pairStarPatterns := by
  refine ⟨by decide, by decide, by decide, by decide⟩

/-- One step of the construction loop when both `AllowSet`s build
successfully. -/
theorem fromConfigArrayGo_cons_ok (instFull regFull : Finset String)
    (c : Finset String × Finset String) (rest : List (Finset String × Finset String))
    (acc : List AllowPair) (A B : AllowSet)
    (hA : AllowSet.make instFull c.1 = .ok A)
    (hB : AllowSet.make regFull c.2 = .ok B) :
    fromConfigArrayGo instFull regFull (c :: rest) acc =
      if (⟨A, B⟩ : AllowPair) ∈ acc then .error "Duplicate AllowPair"
      else fromConfigArrayGo instFull regFull rest (acc ++ [⟨A, B⟩]) := by
  rw [fromConfigArrayGo, hA, hB]

/-- **C8 (amended)**: the duplicate-rule rejection happens at construction
time, but under pydantic model equality of the two groups — equal
`full_set`, `allow_set` AND cached `computed_set` on both axes — not under
mere equality of the resolved computed sets: repeating an identical
configuration entry fails with the duplicate error. -/
theorem AllowInstances.duplicate_identical_config_rejected
    (instFull regFull : Finset String) (c : Finset String × Finset String)
    (rest : List (Finset String × Finset String)) (A B : AllowSet)
    (hA : AllowSet.make instFull c.1 = .ok A)
    (hB : AllowSet.make regFull c.2 = .ok B) :
    AllowInstances.from_config_json_array (c :: c :: rest) instFull regFull =
      .error "Duplicate AllowPair" := by
  rw [AllowInstances.from_config_json_array,
    fromConfigArrayGo_cons_ok instFull regFull c (c :: rest) [] A B hA hB,
    if_neg (List.not_mem_nil _),
    fromConfigArrayGo_cons_ok instFull regFull c rest ([] ++ [AllowPair.mk A B]) A B hA hB,
    if_pos (by simp : AllowPair.mk A B ∈ ([] ++ [AllowPair.mk A B]))]

/-- **C8 (amended) witness**: an identical repeated entry rejected on
concrete universes. -/
theorem AllowInstances.duplicate_identical_config_rejected_witness :
    AllowInstances.from_config_json_array [(∅, ∅), (∅, ∅)]
        {"gpu_1x_a10"} {"us-east-1"} = .error "Duplicate AllowPair" :=
  AllowInstances.duplicate_identical_config_rejected {"gpu_1x_a10"} {"us-east-1"}
    (∅, ∅) [] ⟨{"gpu_1x_a10"}, ∅, {"gpu_1x_a10"}⟩ ⟨{"us-east-1"}, ∅, {"us-east-1"}⟩
    (AllowSet.make_empty_allow_ok {"gpu_1x_a10"} (by decide))
    (AllowSet.make_empty_allow_ok {"us-east-1"} (by decide))

/-- **C9**: an `AllowInstances` collection with zero member groups answers
`is_allowed` false for every name and region; a collection answers true
exactly when some member group allows the name on its name axis AND the
region on its region axis (logical OR over the groups). -/
theorem AllowInstances.empty_denies_nonempty_or :
    (∀ instance_name region : String,
      (AllowInstances.mk []).is_allowed instance_name region = false) ∧
    (∀ (ai : AllowInstances) (instance_name region : String),
      ai.is_allowed instance_name region = true ↔
        ∃ p ∈ ai.allow_pairs, p.instance_names.is_allowed instance_name = true ∧
          p.regions.is_allowed region = true) := by
  refine ⟨fun _ _ => rfl, fun ai instance_name region => ?_⟩
  simp [AllowInstances.is_allowed, AllowPair.is_allowed, List.any_eq_true,
    Bool.and_eq_true]

/-- **C9 witness**: the empty collection denies a concrete input on which a
lone `AllowSet` with empty patterns would have answered true. -/
theorem AllowInstances.empty_denies_nonempty_or_witness :
    (AllowInstances.mk []).is_allowed "gpu_1x_a10" "us-east-1" = false :=
  AllowInstances.empty_denies_nonempty_or.1 "gpu_1x_a10" "us-east-1"
